import Mathlib

/-!
# Verification of `password_manager.py` (Secure-Password-Manager)

Shallow embedding of the repository's single source file
`src/password_manager.py` (class `PasswordManager`), and proofs checking
the natural-language specification against it.

Modelling conventions:
* Python strings are lists of Unicode code points (`List Nat`), so the
  on-disk file content and every serialized form is a `List Nat`.
* The file system is reduced to the one vault file the manager touches:
  `Option (List Nat)` — `none` means `os.path.exists(data_file)` is false.
* `json.dumps` / `json.loads` from the Python standard library are
  modelled by `PasswordManager.dumps` / `PasswordManager.loads`,
  restricted to the one data shape this program ever serializes: a dict
  from service-name strings to `{"username": ..., "password": ...}`
  records.  `dumps` produces the exact canonical text `json.dumps` emits
  for such a dict (item separator `", "`, key separator `": "`, string
  escaping of `"` and `\` and of control characters as `\u00XX`; other
  code points are kept literal, i.e. the `ensure_ascii=False` spelling of
  the same data).  `loads` is the matching recursive-descent reader; like
  `json.loads` it also accepts the short escapes `\b \f \n \r \t \/` and
  arbitrary `\uXXXX` escapes, and it rebuilds the dict entry by entry
  (last write wins on duplicate keys, as Python dict construction does).
* `cryptography.fernet.Fernet` is modelled symbolically in Dolev-Yao
  style: a ciphertext is `key :: nonce :: plaintext`, and decryption
  authenticates by succeeding exactly on ciphertexts built under the same
  key.  This captures the two properties the claims use — decryption
  under the wrong key fails, successful decryption returns the original
  plaintext — without modelling AES/HMAC internals.
* Randomness (`Fernet.generate_key()`, the per-encryption nonce,
  `secrets.choice`) is passed in explicitly as arguments, and the success
  or failure of a disk write is an explicit `Bool`, so every operation is
  a total function on its state plus those oracles.
-/

namespace PasswordManager

/-- A credential record, the value stored per service:
Python `{'username': username, 'password': password}`. -/
structure CredRecord where
  username : List Nat
  password : List Nat
deriving DecidableEq, Repr

/-- The in-memory credential store `self.passwords`: a Python dict from
service name to record, modelled as an insertion-ordered association list
(Python dicts preserve insertion order; keys are unique by construction). -/
abbrev CredentialStore := List (List Nat × CredRecord)

/-- Python `d[k] = v`: if `k` is present its value is replaced in place
(position kept), otherwise the pair is appended at the end. -/
def dictInsert : CredentialStore → List Nat → CredRecord → CredentialStore
  | [], k, v => [(k, v)]
  | (k', v') :: rest, k, v =>
      if k' = k then (k, v) :: rest else (k', v') :: dictInsert rest k v

/-- Python `d.get(k)`: the value stored under `k`, if any. -/
def dictGet : CredentialStore → List Nat → Option CredRecord
  | [], _ => none
  | (k', v') :: rest, k => if k' = k then some v' else dictGet rest k

/-- Python `del d[k]`: on the unique-key store this removes exactly the
entry for `k` (filtering removes every entry with that key; a dict never
holds two). -/
def dictDelete (d : CredentialStore) (k : List Nat) : CredentialStore :=
  d.filter (fun kv => kv.1 ≠ k)

/-- The keys of the store, in order (Python `d.keys()`). -/
def dictKeys (d : CredentialStore) : List (List Nat) :=
  d.map Prod.fst

/-! ## The JSON codec (model of `json.dumps` / `json.loads` on the
credential-store shape) -/

/-- Lowercase hexadecimal digit character for `n < 16`
(`'0'` = 48 … `'9'` = 57, `'a'` = 97 … `'f'` = 102). -/
def hexDigit (n : Nat) : Nat :=
  if n < 10 then 48 + n else 87 + n

/-- JSON string escaping of one code point, as `json.dumps` does it:
`"` and `\` get a backslash escape, control characters below U+0020
become `\u00XX`, and every other code point is kept literal. -/
def escapeChar (c : Nat) : List Nat :=
  if c = 34 then [92, 34]
  else if c = 92 then [92, 92]
  else if c < 32 then [92, 117, 48, 48, hexDigit (c / 16), hexDigit (c % 16)]
  else [c]

/-- A JSON string literal: `"` body `"` with every character escaped. -/
def dumpsString (s : List Nat) : List Nat :=
  34 :: ((s.map escapeChar).flatten ++ [34])

/-- The code points of the fixed key `"username"`. -/
def strUsername : List Nat := [117, 115, 101, 114, 110, 97, 109, 101]

/-- The code points of the fixed key `"password"`. -/
def strPassword : List Nat := [112, 97, 115, 115, 119, 111, 114, 100]

/-- The JSON object for one credential record, exactly as `json.dumps`
prints the dict `{'username': u, 'password': p}`:
`{"username": "u", "password": "p"}` (123 = `{`, 125 = `}`, 58 = `:`,
44 = `,`, 32 = space). -/
def dumpsRecord (r : CredRecord) : List Nat :=
  123 :: (dumpsString strUsername ++ 58 :: 32 :: (dumpsRecord.val r))
where
  /-- The tail of the record object after `"username": `. -/
  val (r : CredRecord) : List Nat :=
    dumpsString r.username ++ 44 :: 32 ::
      (dumpsString strPassword ++ 58 :: 32 :: (dumpsString r.password ++ [125]))

/-- The comma-separated items of the top-level object, in store order. -/
def dumpsItems : CredentialStore → List Nat
  | [] => []
  | (k, v) :: rest =>
      dumpsString k ++ 58 :: 32 ::
        (dumpsRecord v ++ (if rest.isEmpty then [] else 44 :: 32 :: dumpsItems rest))

/-- Model of `json.dumps(self.passwords)`: the canonical JSON text of the
whole store. -/
def dumps (s : CredentialStore) : List Nat :=
  123 :: (dumpsItems s ++ [125])

/-- Reading one hexadecimal digit character (accepting both cases, as
`json.loads` does). -/
def parseHex (c : Nat) : Option Nat :=
  if 48 ≤ c ∧ c ≤ 57 then some (c - 48)
  else if 97 ≤ c ∧ c ≤ 102 then some (c - 87)
  else if 65 ≤ c ∧ c ≤ 70 then some (c - 55)
  else none

/-- The single-character JSON escapes `json.loads` accepts. -/
def unescape (e : Nat) : Option Nat :=
  if e = 34 then some 34
  else if e = 92 then some 92
  else if e = 47 then some 47
  else if e = 98 then some 8
  else if e = 102 then some 12
  else if e = 110 then some 10
  else if e = 114 then some 13
  else if e = 116 then some 9
  else none

/-- Reading the body of a JSON string literal up to and including the
closing `"`; returns the decoded string and the remaining input.
117 = `u`, 92 = `\`, 34 = `"`. -/
def parseStringBody : List Nat → Option (List Nat × List Nat)
  | [] => none
  | c :: rest =>
    if c = 34 then some ([], rest)
    else if c = 92 then
      match rest with
      | 117 :: h1 :: h2 :: h3 :: h4 :: rest2 =>
        match parseHex h1, parseHex h2, parseHex h3, parseHex h4 with
        | some a, some b, some c2, some d =>
          match parseStringBody rest2 with
          | some (s, r) => some ((((a * 16 + b) * 16 + c2) * 16 + d) :: s, r)
          | none => none
        | _, _, _, _ => none
      | e :: rest2 =>
        match unescape e with
        | some ch =>
          match parseStringBody rest2 with
          | some (s, r) => some (ch :: s, r)
          | none => none
        | none => none
      | [] => none
    else
      match parseStringBody rest with
      | some (s, r) => some (c :: s, r)
      | none => none

/-- Reading a complete JSON string literal (opening quote included). -/
def parseQuotedString (l : List Nat) : Option (List Nat × List Nat) :=
  match l with
  | 34 :: rest => parseStringBody rest
  | _ => none

/-- Consuming an expected literal character sequence. -/
def expect : List Nat → List Nat → Option (List Nat)
  | [], l => some l
  | p :: ps, c :: cs => if c = p then expect ps cs else none
  | _ :: _, [] => none

/-- Reading one record object `{"username": "...", "password": "..."}`. -/
def parseRecord (l : List Nat) : Option (CredRecord × List Nat) := do
  let l ← expect [123] l
  let (k1, l) ← parseQuotedString l
  if k1 = strUsername then
    let l ← expect [58, 32] l
    let (u, l) ← parseQuotedString l
    let l ← expect [44, 32] l
    let (k2, l) ← parseQuotedString l
    if k2 = strPassword then
      let l ← expect [58, 32] l
      let (p, l) ← parseQuotedString l
      let l ← expect [125] l
      some (⟨u, p⟩, l)
    else none
  else none

/-- Reading the comma-separated items of a non-empty top-level object,
up to and including the closing `}`.  The fuel argument bounds the number
of items and makes the recursion structural; `loads` passes the input
length, which always suffices. -/
def parseItemsAux : Nat → List Nat → Option (CredentialStore × List Nat)
  | 0, _ => none
  | fuel + 1, l => do
    let (k, l) ← parseQuotedString l
    let l ← expect [58, 32] l
    let (v, l) ← parseRecord l
    match l with
    | 44 :: 32 :: r => do
        let (s, r2) ← parseItemsAux fuel r
        some ((k, v) :: s, r2)
    | 125 :: r => some ([(k, v)], r)
    | _ => none

/-- Reading the top-level JSON object. -/
def parseObject (l : List Nat) : Option (CredentialStore × List Nat) :=
  match l with
  | 123 :: 125 :: r => some ([], r)
  | 123 :: r => parseItemsAux r.length r
  | _ => none

/-- Rebuilding the Python dict from the parsed key/value sequence, entry
by entry (`d[k] = v` for each item, so a later duplicate key overwrites
the earlier value in place). -/
def buildDict (items : CredentialStore) : CredentialStore :=
  items.foldl (fun d kv => dictInsert d kv.1 kv.2) []

/-- Model of `json.loads` on the credential-store shape: parse the whole
input as one object (no trailing data) and rebuild the dict. -/
def loads (l : List Nat) : Option CredentialStore :=
  match parseObject l with
  | some (s, []) => some (buildDict s)
  | _ => none

/-! ## Fernet and key derivation -/

/-- Symbolic model of `Fernet(key).encrypt(pt)`: an authenticated token
carrying the key it was built under and the fresh per-call nonce. -/
def fernetEncrypt (key nonce : Nat) (pt : List Nat) : List Nat :=
  key :: nonce :: pt

/-- Symbolic model of `Fernet(key).decrypt(ct)`: succeeds with the
original plaintext exactly when `ct` is a token built under the same key
(wrong key or malformed token raises `InvalidToken`, modelled as `none`). -/
def fernetDecrypt (key : Nat) (ct : List Nat) : Option (List Nat) :=
  match ct with
  | k :: _ :: pt => if k = key then some pt else none
  | _ => none

set_option linter.unusedVariables false in
/-- Model of `PasswordManager._derive_key`.  The source computes
`sha256(password.encode()).digest()` into a local variable that is never
used again, and returns `Fernet.generate_key()` — a fresh random key,
independent of the password (its own comment admits it: "In real use,
would use digest properly").  The fresh randomness is the explicit
argument `generatedKey`, and the result is exactly that value; the
password does not influence it. -/
def derive_key (password : List Nat) (generatedKey : Nat) : Nat :=
  generatedKey

/-! ## The manager state and its operations -/

/-- Everything a `PasswordManager` instance and its vault file hold:
`self.key` (= the `Fernet` cipher's key), `self.passwords`, and the
content of `self.data_file` on disk (`none` = file does not exist). -/
structure PMState where
  key : Nat
  passwords : CredentialStore
  file : Option (List Nat)
deriving DecidableEq, Repr

/-- The messages the class prints (`print(f"...")`); no operation
reports errors any other way. -/
inductive Msg where
  | errorLoading
  | errorSaving
  | passwordAdded (service : List Nat)
  | passwordDeleted (service : List Nat)
  | noPasswordFound (service : List Nat)
deriving DecidableEq, Repr

/-- Model of `PasswordManager._load_passwords`: read the file, and if it
is non-empty decrypt it and parse the JSON; on ANY exception (missing
file, `InvalidToken` from decryption, `json` parse error) print an error
message and set `self.passwords = {}`.  Returns the new state and the
printed messages. -/
def load_passwords (st : PMState) : PMState × List Msg :=
  match st.file with
  | none => ({ st with passwords := [] }, [Msg.errorLoading])
  | some content =>
    if content = [] then (st, [])
    else
      match fernetDecrypt st.key content with
      | none => ({ st with passwords := [] }, [Msg.errorLoading])
      | some pt =>
        match loads pt with
        | none => ({ st with passwords := [] }, [Msg.errorLoading])
        | some store => ({ st with passwords := store }, [])

/-- Model of `PasswordManager._save_passwords`: serialize, encrypt under
`self.key` with a fresh `nonce`, and write the token to the file; if the
write raises (`writeOk = false`, e.g. the `open` fails) the exception is
caught and only an error message is printed — the caller never sees it. -/
def save_passwords (st : PMState) (nonce : Nat) (writeOk : Bool) :
    PMState × List Msg :=
  if writeOk then
    ({ st with file := some (fernetEncrypt st.key nonce (dumps st.passwords)) }, [])
  else
    (st, [Msg.errorSaving])

/-- Model of `PasswordManager._save_passwords` when the process crashes
mid-write: `open(self.data_file, 'w')` has already truncated the vault
file in place (there is no temporary file and no rename), and only the
first `written` characters of the new token reached the disk.  Returns
the resulting on-disk content. -/
def save_passwords_crash (st : PMState) (nonce : Nat) (written : Nat) :
    Option (List Nat) :=
  some ((fernetEncrypt st.key nonce (dumps st.passwords)).take written)

/-- Model of `PasswordManager.__init__`: derive the key (i.e. take the
fresh random `generatedKey`), start with an empty `self.passwords`, and
if the data file exists run `_load_passwords`.  Always returns a
constructed manager plus the printed messages; no error is ever raised
to the caller. -/
def init (masterPassword : List Nat) (generatedKey : Nat)
    (file : Option (List Nat)) : PMState × List Msg :=
  let st : PMState :=
    { key := derive_key masterPassword generatedKey, passwords := [], file := file }
  if st.file.isSome then load_passwords st else (st, [])

/-- Model of `PasswordManager.add_password`: set
`self.passwords[service] = {'username': ..., 'password': ...}`, call
`_save_passwords`, print a success message.  (The Python method has no
`return` statement, i.e. returns `None`.) -/
def add_password (st : PMState) (service username password : List Nat)
    (nonce : Nat) (writeOk : Bool) : PMState × List Msg :=
  let st1 := { st with passwords := dictInsert st.passwords service ⟨username, password⟩ }
  let saved := save_passwords st1 nonce writeOk
  (saved.1, saved.2 ++ [Msg.passwordAdded service])

/-- Model of `PasswordManager.get_password`: `return self.passwords.get(service)`.
The method body contains no assignment and no save call; the state is
returned unchanged alongside the looked-up record. -/
def get_password (st : PMState) (service : List Nat) :
    PMState × Option CredRecord :=
  (st, dictGet st.passwords service)

/-- Model of `PasswordManager.delete_password`: if the service is a key
of `self.passwords`, delete it, call `_save_passwords` and print a
success message; otherwise print a not-found message and do nothing.
Either way the Python method has no `return` statement: the returned
value (third component) is `none`, i.e. Python `None`, never a Bool. -/
def delete_password (st : PMState) (service : List Nat)
    (nonce : Nat) (writeOk : Bool) : PMState × List Msg × Option Bool :=
  if service ∈ dictKeys st.passwords then
    let st1 := { st with passwords := dictDelete st.passwords service }
    let saved := save_passwords st1 nonce writeOk
    (saved.1, saved.2 ++ [Msg.passwordDeleted service], none)
  else
    (st, [Msg.noPasswordFound service], none)

/-! ## Password generation -/

/-- `string.ascii_letters + string.digits + string.punctuation` as code
points: `a`-`z`, `A`-`Z`, `0`-`9`, then the 32 ASCII punctuation
characters (33-47, 58-64, 91-96, 123-126). -/
def alphabet : List Nat :=
  List.range' 97 26 ++ List.range' 65 26 ++ List.range' 48 10 ++
    (List.range' 33 15 ++ List.range' 58 7 ++ List.range' 91 6 ++ List.range' 123 4)

/-- Model of `PasswordManager.generate_password`: `length` independent
draws of `secrets.choice(alphabet)`, concatenated.  The CSPRNG is the
explicit oracle `choice`; draw `i` picks the alphabet element of index
`choice i % 94`. -/
def generate_password (length : Nat) (choice : Nat → Nat) : List Nat :=
  (List.range length).map (fun i => alphabet.getD (choice i % alphabet.length) 0)

/-! ## Sample values used by witnesses -/

/-- A sample record (`username "a"`, `password "b"`). -/
def sampleRecord : CredRecord := ⟨[97], [98]⟩

/-- A sample one-entry store (`"g" -> sampleRecord`). -/
def sampleStore : CredentialStore := [([103], sampleRecord)]

/-- A sample manager state holding `sampleStore`, no file on disk. -/
def sampleState : PMState := { key := 1, passwords := sampleStore, file := none }


/-! ## Round-trip lemmas for the JSON codec -/

lemma parseHex_hexDigit (n : Nat) (h : n < 16) : parseHex (hexDigit n) = some n := by
  rcases Nat.lt_or_ge n 10 with h10 | h10
  · have he : hexDigit n = 48 + n := by simp [hexDigit, h10]
    rw [he]
    simp only [parseHex]
    rw [if_pos (by omega)]
    congr 1
    omega
  · have he : hexDigit n = 87 + n := by simp [hexDigit]; omega
    rw [he]
    simp only [parseHex]
    rw [if_neg (by omega), if_pos (by omega)]
    congr 1
    omega

lemma parseHex_48 : parseHex 48 = some 0 := by norm_num [parseHex]

lemma parseStringBody_escaped (s rest : List Nat) :
    parseStringBody ((s.map escapeChar).flatten ++ 34 :: rest) = some (s, rest) := by
  induction s with
  | nil =>
    unfold parseStringBody
    simp
  | cons c t ih =>
    by_cases hc34 : c = 34
    · subst hc34
      simp only [List.map_cons, List.flatten_cons, escapeChar, List.cons_append,
        List.append_assoc, List.nil_append, if_pos rfl]
      unfold parseStringBody
      simp [unescape, ih]
    · by_cases hc92 : c = 92
      · subst hc92
        simp only [List.map_cons, List.flatten_cons, escapeChar, List.cons_append,
          List.append_assoc, List.nil_append]
        norm_num
        unfold parseStringBody
        simp [unescape, ih]
      · by_cases hlt : c < 32
        · have h16 : c / 16 < 16 := by omega
          have h16b : c % 16 < 16 := by omega
          simp only [List.map_cons, List.flatten_cons, escapeChar,
            if_neg hc34, if_neg hc92, if_pos hlt, List.append_assoc,
            List.cons_append, List.nil_append]
          unfold parseStringBody
          simp only [parseHex_hexDigit _ h16, parseHex_hexDigit _ h16b, parseHex_48, ih]
          norm_num
          omega
        · simp only [List.map_cons, List.flatten_cons, escapeChar,
            if_neg hc34, if_neg hc92, if_neg hlt, List.append_assoc,
            List.cons_append, List.nil_append]
          unfold parseStringBody
          simp [hc34, hc92, ih]

lemma parseQuotedString_dumpsString (s rest : List Nat) :
    parseQuotedString (dumpsString s ++ rest) = some (s, rest) := by
  have h : dumpsString s ++ rest = 34 :: ((s.map escapeChar).flatten ++ 34 :: rest) := by
    simp [dumpsString, List.append_assoc]
  rw [h]
  simpa [parseQuotedString] using parseStringBody_escaped s rest

lemma expect_append (pat l : List Nat) : expect pat (pat ++ l) = some l := by
  induction pat with
  | nil => rfl
  | cons p ps ih => simp [expect, ih]

lemma parseRecord_dumpsRecord (v : CredRecord) (rest : List Nat) :
    parseRecord (dumpsRecord v ++ rest) = some (v, rest) := by
  simp only [dumpsRecord, dumpsRecord.val, List.cons_append, List.append_assoc,
    List.nil_append]
  unfold parseRecord
  simp [parseQuotedString_dumpsString, expect]

lemma parseItemsAux_dumpsItems (s : CredentialStore) (fuel : Nat) (rest : List Nat)
    (hne : s ≠ []) (hfuel : s.length ≤ fuel) :
    parseItemsAux fuel (dumpsItems s ++ 125 :: rest) = some (s, rest) := by
  induction s generalizing fuel rest with
  | nil => exact absurd rfl hne
  | cons hd t ih =>
    obtain ⟨k, v⟩ := hd
    cases fuel with
    | zero => simp at hfuel
    | succ f =>
      cases t with
      | nil =>
        simp only [dumpsItems, List.isEmpty_nil, if_pos rfl, List.append_nil,
          List.append_assoc, List.cons_append, List.nil_append]
        unfold parseItemsAux
        simp [parseQuotedString_dumpsString, expect, parseRecord_dumpsRecord]
      | cons x t2 =>
        have hunf : dumpsItems ((k, v) :: x :: t2) =
            dumpsString k ++ 58 :: 32 :: (dumpsRecord v ++ 44 :: 32 :: dumpsItems (x :: t2)) := by
          simp [dumpsItems]
        rw [hunf]
        simp only [List.append_assoc, List.cons_append, List.nil_append]
        unfold parseItemsAux
        have hrec := ih f rest (by simp) (by simp at hfuel ⊢; omega)
        simp [parseQuotedString_dumpsString, expect, parseRecord_dumpsRecord, hrec]

lemma length_le_dumpsItems (s : CredentialStore) : s.length ≤ (dumpsItems s).length := by
  induction s with
  | nil => simp [dumpsItems]
  | cons hd t ih =>
    obtain ⟨k, v⟩ := hd
    cases t with
    | nil => simp [dumpsItems, dumpsString]
    | cons x t2 =>
      have hunf : dumpsItems ((k, v) :: x :: t2) =
          dumpsString k ++ 58 :: 32 :: (dumpsRecord v ++ 44 :: 32 :: dumpsItems (x :: t2)) := by
        simp [dumpsItems]
      rw [hunf]
      simp only [List.length_append, List.length_cons, dumpsString] at ih ⊢
      omega

lemma parseObject_dumps (s : CredentialStore) : parseObject (dumps s) = some (s, []) := by
  cases s with
  | nil =>
    unfold dumps dumpsItems parseObject
    simp
  | cons hd t =>
    obtain ⟨k, v⟩ := hd
    have hM : dumpsItems ((k, v) :: t) ++ 125 :: [] =
        34 :: (((k.map escapeChar).flatten ++ [34]) ++
          (58 :: 32 :: ((dumpsRecord v ++
            (if t.isEmpty then [] else 44 :: 32 :: dumpsItems t)) ++ 125 :: []))) := by
      simp [dumpsItems, dumpsString, List.append_assoc]
    have hform : dumps ((k, v) :: t) = 123 :: (dumpsItems ((k, v) :: t) ++ 125 :: []) := rfl
    rw [hform, hM]
    unfold parseObject
    simp only []
    rw [← hM]
    exact parseItemsAux_dumpsItems ((k, v) :: t) _ [] (by simp)
      (by
        have h1 := length_le_dumpsItems ((k, v) :: t)
        simp only [List.length_append, List.length_cons, List.length_nil] at h1 ⊢
        omega)

lemma dictInsert_notMem (d : CredentialStore) (k : List Nat) (v : CredRecord)
    (h : k ∉ dictKeys d) : dictInsert d k v = d ++ [(k, v)] := by
  induction d with
  | nil => rfl
  | cons hd t ih =>
    obtain ⟨k2, v2⟩ := hd
    have hck : dictKeys ((k2, v2) :: t) = k2 :: dictKeys t := rfl
    rw [hck] at h
    have h1 : ¬(k2 = k) := fun he => h (by rw [he]; exact List.mem_cons_self _ _)
    have h2 : k ∉ dictKeys t := fun hm => h (List.mem_cons_of_mem _ hm)
    simp only [dictInsert, if_neg h1, List.cons_append]
    exact congrArg (List.cons (k2, v2)) (ih h2)

lemma foldl_dictInsert (items d : CredentialStore)
    (h : (dictKeys (d ++ items)).Nodup) :
    items.foldl (fun a kv => dictInsert a kv.1 kv.2) d = d ++ items := by
  induction items generalizing d with
  | nil => simp
  | cons hd t ih =>
    obtain ⟨k, v⟩ := hd
    have hkeys : dictKeys (d ++ (k, v) :: t) = dictKeys d ++ k :: dictKeys t := by
      simp [dictKeys]
    rw [hkeys] at h
    have hnotin : k ∉ dictKeys d := by
      rw [List.nodup_append] at h
      intro hmem
      exact h.2.2 hmem (by simp)
    simp only [List.foldl_cons]
    rw [dictInsert_notMem d k v hnotin]
    rw [ih (d ++ [(k, v)]) (by simpa [dictKeys, List.append_assoc] using h)]
    simp

lemma buildDict_nodup (s : CredentialStore) (h : (dictKeys s).Nodup) :
    buildDict s = s := by
  unfold buildDict
  simpa using foldl_dictInsert s [] (by simpa using h)

/-- C5: serialization round-trip — for every valid credential store S
(unique service keys, as any Python dict has), deserializing the
serialized form yields S back: `loads (dumps S) = some S`. -/
theorem loads_dumps_roundtrip (s : CredentialStore) (h : (dictKeys s).Nodup) :
    loads (dumps s) = some s := by
  unfold loads
  rw [parseObject_dumps]
  simp only []
  rw [buildDict_nodup s h]

/-- Witness for C5 at a concrete two-entry store (with characters that
exercise the escaping: a quote, a backslash and a newline). -/
theorem loads_dumps_roundtrip_witness :
    (dictKeys [([103], CredRecord.mk [97] [98]), ([104, 10], CredRecord.mk [34] [92])]).Nodup
      ∧ loads (dumps [([103], CredRecord.mk [97] [98]), ([104, 10], CredRecord.mk [34] [92])])
        = some [([103], CredRecord.mk [97] [98]), ([104, 10], CredRecord.mk [34] [92])] :=
  ⟨by decide, loads_dumps_roundtrip _ (by decide)⟩

/-! ## Store lookup and delete lemmas -/

lemma dictGet_none_iff (d : CredentialStore) (k : List Nat) :
    dictGet d k = none ↔ k ∉ dictKeys d := by
  induction d with
  | nil => simp [dictGet, dictKeys]
  | cons hd t ih =>
    obtain ⟨k2, v2⟩ := hd
    by_cases he : k2 = k
    · subst he
      simp [dictGet, dictKeys]
    · simp only [dictGet, if_neg he, dictKeys, List.map_cons, List.mem_cons]
      rw [ih]
      simp [dictKeys]
      intro h2
      exact fun hk => he hk.symm

lemma dictGet_mem (d : CredentialStore) (k : List Nat) (r : CredRecord)
    (h : dictGet d k = some r) : (k, r) ∈ d := by
  induction d with
  | nil => simp [dictGet] at h
  | cons hd t ih =>
    obtain ⟨k2, v2⟩ := hd
    by_cases he : k2 = k
    · subst he
      rw [show dictGet ((k2, v2) :: t) k2 = some v2 from by simp [dictGet]] at h
      have hvr := Option.some.inj h
      subst hvr
      exact List.mem_cons_self _ _
    · simp only [dictGet, if_neg he] at h
      exact List.mem_cons_of_mem _ (ih h)

lemma dictGet_dictDelete_self (d : CredentialStore) (k : List Nat) :
    dictGet (dictDelete d k) k = none := by
  induction d with
  | nil => rfl
  | cons hd t ih =>
    obtain ⟨k2, v2⟩ := hd
    by_cases he : k2 = k
    · subst he
      simpa [dictDelete, List.filter] using ih
    · simpa [dictDelete, List.filter, he, dictGet] using ih

lemma dictGet_dictDelete_ne (d : CredentialStore) (k k2 : List Nat) (h : k2 ≠ k) :
    dictGet (dictDelete d k) k2 = dictGet d k2 := by
  induction d with
  | nil => rfl
  | cons hd t ih =>
    obtain ⟨k3, v3⟩ := hd
    by_cases he : k3 = k
    · subst he
      have hne : ¬(k3 = k2) := fun hk => h hk.symm
      simpa [dictDelete, List.filter, dictGet, hne] using ih
    · by_cases he2 : k3 = k2
      · subst he2
        simpa [dictDelete, List.filter, he, dictGet] using ih
      · simpa [dictDelete, List.filter, he, he2, dictGet] using ih

lemma save_passwords_passwords (st : PMState) (n : Nat) (w : Bool) :
    (save_passwords st n w).1.passwords = st.passwords := by
  cases w <;> simp [save_passwords]

/-! ## Claim theorems -/

/-- C1 (code bug): key derivation is NOT deterministic in the code —
`_derive_key` discards the sha256 digest and returns `Fernet.generate_key()`,
a fresh random key, so two calls with the same master password (here the
one-character password "x") yield different keys whenever the generator
returns different values. -/
theorem derive_key_not_deterministic :
    derive_key [120] 0 ≠ derive_key [120] 1 := by decide

/-- C2 (code bug): unlocking an existing vault with a wrong key.  The vault
file was encrypted under key 5; the new process derives key 7 (any fresh
random key).  `__init__` returns normally — the decryption failure is
caught inside `_load_passwords`, only an error message is printed, the
store is left empty, and no `AuthenticationFailure` reaches the caller. -/
theorem wrong_password_unlock_no_error :
    init [112] 7 (some (fernetEncrypt 5 0 (dumps sampleStore)))
      = ({ key := 7, passwords := [],
           file := some (fernetEncrypt 5 0 (dumps sampleStore)) }, [Msg.errorLoading]) := by
  decide

/-- C3 (code bug): a load failure is downgraded to an empty store.  The
file decrypts fine under the manager's own key but holds invalid JSON
(the single character "x"); `_load_passwords` catches the parse error,
prints a message, and resets `self.passwords` — which held a live entry —
to `{}`, surfacing no error value at all. -/
theorem load_failure_becomes_empty_store :
    load_passwords { key := 5, passwords := sampleStore,
                     file := some (fernetEncrypt 5 0 [120]) }
      = ({ key := 5, passwords := [],
           file := some (fernetEncrypt 5 0 [120]) }, [Msg.errorLoading]) := by
  decide

/-- C4 (code bug): saving is not crash-atomic.  `_save_passwords` opens
the vault file with mode `w` (truncate in place, no temporary file, no
rename); a crash immediately after the open and before any character is
written leaves the file empty — the previously persisted valid vault
(the encryption of the empty store under key 1) is destroyed and the
truncated remains are not decryptable. -/
theorem save_crash_destroys_previous_vault :
    save_passwords_crash { key := 1, passwords := sampleStore,
                           file := some (fernetEncrypt 1 0 (dumps [])) } 3 0
        = some []
      ∧ (fernetEncrypt 1 0 (dumps []) : List Nat) ≠ []
      ∧ fernetDecrypt 1 [] = none := by
  refine ⟨?_, by decide, by decide⟩
  simp [save_passwords_crash]

/-- C6: persist-after-every-mutation — whenever the disk write succeeds,
after any `add_password` call, and after any `delete_password` call on an
existing service, the vault file holds exactly the encryption (under the
manager's key, with the fresh nonce) of the serialized NEW store. -/
theorem mutation_persists (st : PMState) (sv u p d : List Nat) (n n2 : Nat) :
    (add_password st sv u p n true).1.file
        = some (fernetEncrypt st.key n (dumps (dictInsert st.passwords sv ⟨u, p⟩)))
  ∧ (d ∈ dictKeys st.passwords →
      (delete_password st d n2 true).1.file
        = some (fernetEncrypt st.key n2 (dumps (dictDelete st.passwords d)))) := by
  constructor
  · simp [add_password, save_passwords]
  · intro h
    simp [delete_password, h, save_passwords]

/-- Witness for C6: both mutations on the sample one-entry state. -/
theorem mutation_persists_witness :
    (add_password sampleState [104] [97] [98] 5 true).1.file
        = some (fernetEncrypt sampleState.key 5
            (dumps (dictInsert sampleState.passwords [104] ⟨[97], [98]⟩)))
  ∧ ([103] ∈ dictKeys sampleState.passwords)
  ∧ (delete_password sampleState [103] 2 true).1.file
        = some (fernetEncrypt sampleState.key 2
            (dumps (dictDelete sampleState.passwords [103]))) :=
  ⟨(mutation_persists sampleState [104] [97] [98] [103] 5 2).1, by decide,
    (mutation_persists sampleState [104] [97] [98] [103] 5 2).2 (by decide)⟩

/-- C7 counterexample: `delete_password` never returns a boolean.  The
Python method has no `return` statement, so it returns `None` (modelled
`none`) both when the service is missing (claim says `false`) and when it
is present (claim says `true`). -/
theorem delete_password_returns_none :
    (delete_password { key := 1, passwords := [], file := none } [120] 0 true).2.2 = none
  ∧ (delete_password sampleState [103] 0 true).2.2 = none
  ∧ (none : Option Bool) ≠ some false
  ∧ (none : Option Bool) ≠ some true := by
  refine ⟨by decide, ?_, by decide, by decide⟩
  simp [delete_password, sampleState, sampleStore, dictKeys, save_passwords]

/-- C7 as amended: deleting a missing service is a no-op — the whole
state (mapping and file) is unchanged, no error is raised, a not-found
message is printed, and the call returns `None` (not `false`); deleting a
present service removes exactly that entry — the mapping becomes
`dictDelete`, every other key reads unchanged, a subsequent get of the
deleted service returns nothing — and the call returns `None` (not
`true`). -/
theorem delete_semantics (st : PMState) (s : List Nat) (n : Nat) (w : Bool) :
    (s ∉ dictKeys st.passwords →
        (delete_password st s n w).1 = st
      ∧ (delete_password st s n w).2.2 = none
      ∧ (delete_password st s n w).2.1 = [Msg.noPasswordFound s])
  ∧ (s ∈ dictKeys st.passwords →
        (delete_password st s n w).1.passwords = dictDelete st.passwords s
      ∧ (delete_password st s n w).2.2 = none
      ∧ (get_password (delete_password st s n w).1 s).2 = none
      ∧ ∀ s2, s2 ≠ s →
          dictGet (delete_password st s n w).1.passwords s2 = dictGet st.passwords s2) := by
  constructor
  · intro h
    simp [delete_password, h]
  · intro h
    refine ⟨?_, ?_, ?_, ?_⟩
    · simp [delete_password, h, save_passwords_passwords]
    · simp [delete_password, h]
    · simp [get_password, delete_password, h, save_passwords_passwords,
        dictGet_dictDelete_self]
    · intro s2 hs2
      simp [delete_password, h, save_passwords_passwords,
        dictGet_dictDelete_ne _ _ _ hs2]

/-- Witness for C7 (amended): both branches on concrete states. -/
theorem delete_semantics_witness :
    ([120] ∉ dictKeys sampleState.passwords)
  ∧ (delete_password sampleState [120] 0 true).1 = sampleState
  ∧ ([103] ∈ dictKeys sampleState.passwords)
  ∧ (get_password (delete_password sampleState [103] 0 true).1 [103]).2 = none :=
  ⟨by decide, ((delete_semantics sampleState [120] 0 true).1 (by decide)).1, by decide,
    ((delete_semantics sampleState [103] 0 true).2 (by decide)).2.2.1⟩

/-- C8: for every positive length, `generate_password` returns exactly
that many characters, all drawn from the 94-character alphabet of
letters, digits and punctuation, whatever the CSPRNG returns. -/
theorem generate_password_spec (n : Nat) (choice : Nat → Nat) (h : 0 < n) :
    (generate_password n choice).length = n
  ∧ ∀ c ∈ generate_password n choice, c ∈ alphabet := by
  constructor
  · simp [generate_password]
  · intro c hc
    simp only [generate_password, List.mem_map, List.mem_range] at hc
    obtain ⟨i, hi, rfl⟩ := hc
    have hlt : choice i % alphabet.length < alphabet.length :=
      Nat.mod_lt _ (by decide)
    rw [List.getD_eq_getElem _ _ hlt]
    exact List.getElem_mem hlt

/-- Witness for C8 at length 16. -/
theorem generate_password_witness :
    0 < 16 ∧ (generate_password 16 id).length = 16 :=
  ⟨by decide, (generate_password_spec 16 id (by decide)).1⟩

/-- C9: `get_password` is a pure read — the state (mapping and file) is
returned untouched, and the result is exactly the stored record when the
service is present (`dictGet`), `none` when it is absent. -/
theorem get_password_pure (st : PMState) (s : List Nat) :
    (get_password st s).1 = st
  ∧ (get_password st s).1.file = st.file
  ∧ (get_password st s).2 = dictGet st.passwords s
  ∧ ((get_password st s).2 = none ↔ s ∉ dictKeys st.passwords)
  ∧ ∀ r, (get_password st s).2 = some r → (s, r) ∈ st.passwords := by
  refine ⟨rfl, rfl, rfl, dictGet_none_iff st.passwords s, ?_⟩
  intro r hr
  exact dictGet_mem st.passwords s r hr

/-- Witness for C9 on the sample state. -/
theorem get_password_pure_witness :
    (get_password sampleState [103]).1 = sampleState
  ∧ (get_password sampleState [103]).2 = some sampleRecord :=
  ⟨(get_password_pure sampleState [103]).1, by decide⟩

/-- C10: a failing disk write is invisible to the caller of a mutation —
`add_password` (and `delete_password` on an existing service) still
updates the in-memory mapping, leaves the file as it was, returns
normally, and the only trace of the failure is the printed error message
preceding the usual success message. -/
theorem save_failure_swallowed (st : PMState) (sv u p d : List Nat) (n n2 : Nat) :
    (add_password st sv u p n false).1.passwords = dictInsert st.passwords sv ⟨u, p⟩
  ∧ (add_password st sv u p n false).1.file = st.file
  ∧ (add_password st sv u p n false).2 = [Msg.errorSaving, Msg.passwordAdded sv]
  ∧ (d ∈ dictKeys st.passwords →
        (delete_password st d n2 false).1.passwords = dictDelete st.passwords d
      ∧ (delete_password st d n2 false).1.file = st.file
      ∧ (delete_password st d n2 false).2.1
            = [Msg.errorSaving, Msg.passwordDeleted d]) := by
  refine ⟨?_, ?_, ?_, ?_⟩
  · simp [add_password, save_passwords]
  · simp [add_password, save_passwords]
  · simp [add_password, save_passwords]
  · intro h
    refine ⟨?_, ?_, ?_⟩ <;> simp [delete_password, h, save_passwords]

/-- Witness for C10 on the sample state (no file on disk; the failed
write leaves it that way while the mapping changes). -/
theorem save_failure_swallowed_witness :
    ([103] ∈ dictKeys sampleState.passwords)
  ∧ (add_password sampleState [104] [97] [98] 0 false).1.file = sampleState.file
  ∧ (add_password sampleState [104] [97] [98] 0 false).1.passwords
        = dictInsert sampleState.passwords [104] ⟨[97], [98]⟩
  ∧ (delete_password sampleState [103] 0 false).1.passwords
        = dictDelete sampleState.passwords [103] :=
  ⟨by decide,
    (save_failure_swallowed sampleState [104] [97] [98] [103] 0 0).2.1,
    (save_failure_swallowed sampleState [104] [97] [98] [103] 0 0).1,
    ((save_failure_swallowed sampleState [104] [97] [98] [103] 0 0).2.2.2 (by decide)).1⟩

end PasswordManager
